import Mathlib

/-!
Verification of the student-registration core (validator, record store,
resequencer) against its natural-language specification.

The Python source is shallowly embedded: the validator is a pure function
from a candidate record to a list of error strings; the record store is a
list of rows with explicit state passing; Python regular-expression
matching (with its end-anchor semantics, where the dollar anchor also
matches just before a single trailing newline) is embedded as decidable
predicates over character lists; the digit and whitespace shorthand
classes are modelled over their ASCII members.
-/

/-- A candidate record arriving as a JSON object: every field may be
missing; present fields are strings. -/
structure Candidate where
  first_name : Option String
  last_name : Option String
  phone : Option String
  birthdate : Option String
  email : Option String
deriving DecidableEq

/-- Python whitespace class for the regex shorthand matching spaces. -/
def pyIsSpace (c : Char) : Bool :=
  c == ' ' || c == '\t' || c == '\n' || c == '\x0b' || c == '\x0c' || c == '\r'

/-- Characters admitted by the name pattern class of letters, whitespace
and hyphen. -/
def nameChar (c : Char) : Bool :=
  c.isAlpha || pyIsSpace c || c == '-'

/-- Core of the first and last name pattern: 2 to 50 characters, each a
letter, whitespace or hyphen. -/
def nameCore (cs : List Char) : Bool :=
  decide (2 ≤ cs.length) && decide (cs.length ≤ 50) && cs.all nameChar

/-- Core of the phone pattern: a digit 5 to 9 followed by nine digits. -/
def phoneCore (cs : List Char) : Bool :=
  match cs with
  | [] => false
  | c :: rest =>
    decide ('5' ≤ c) && decide (c ≤ '9') && decide (rest.length = 9) &&
      rest.all Char.isDigit

/-- Core of the email pattern: one or more non-at characters, an at sign,
one or more non-at characters, a dot, one or more non-at characters. -/
def emailCore (cs : List Char) : Bool :=
  match cs.splitOn '@' with
  | [localPart, domainPart] =>
    (!localPart.isEmpty) && ((domainPart.drop 1).dropLast.contains '.')
  | _ => false

/-- Anchored match as performed by Python on a pattern bracketed by the
start and end anchors: the end anchor also matches just before a single
trailing newline. -/
def pyDollarMatch (core : List Char → Bool) (s : String) : Bool :=
  let cs := s.toList
  core cs || (cs.getLast? == some '\n' && core cs.dropLast)

/-- The first-name rule passes: field present, nonempty, and matching the
name pattern. -/
def firstNameOk (c : Candidate) : Bool :=
  match c.first_name with
  | none => false
  | some s => (!(s == "")) && pyDollarMatch nameCore s

/-- The last-name rule passes: field present, nonempty, and matching the
name pattern. -/
def lastNameOk (c : Candidate) : Bool :=
  match c.last_name with
  | none => false
  | some s => (!(s == "")) && pyDollarMatch nameCore s

/-- The phone rule passes: field present (defaulting to the empty string),
nonempty, and matching the phone pattern. -/
def phoneOk (c : Candidate) : Bool :=
  let s := c.phone.getD ""
  (!(s == "")) && pyDollarMatch phoneCore s

/-- The email rule passes: the field (defaulting to the empty string)
matches the email pattern. -/
def emailOk (c : Candidate) : Bool :=
  pyDollarMatch emailCore (c.email.getD "")

/-- A calendar date as year, month, day. -/
structure PyDate where
  year : Nat
  month : Nat
  day : Nat
deriving DecidableEq

/-- Gregorian leap-year rule. -/
def isLeapYear (y : Nat) : Bool :=
  y % 4 == 0 && (y % 100 != 0 || y % 400 == 0)

/-- Number of days in a month of a given year. -/
def daysInMonth (y m : Nat) : Nat :=
  if m == 2 then (if isLeapYear y then 29 else 28)
  else if m == 4 || m == 6 || m == 9 || m == 11 then 30
  else 31

/-- A representable calendar date: year 1 to 9999, month 1 to 12, day
within the month. -/
def validDate (y m d : Nat) : Bool :=
  decide (1 ≤ y) && decide (y ≤ 9999) && decide (1 ≤ m) && decide (m ≤ 12) &&
    decide (1 ≤ d) && decide (d ≤ daysInMonth y m)

/-- Numeric value of a digit string. -/
def digitsToNat (cs : List Char) : Nat :=
  cs.foldl (fun n c => n * 10 + (c.toNat - 48)) 0

/-- Parsing of the birthdate field in the year-month-day format as the
strptime pattern matches it: exactly four year digits, a hyphen, one to
two month digits, a hyphen, one to two day digits, consuming the whole
string, then date-validity checking (out-of-range month, day or year
values fail, as they do in the source whether rejected by the pattern or
by date construction; both paths raise and are caught as one). -/
def parseBirthdate (s : String) : Option PyDate :=
  match s.toList.splitOn '-' with
  | [ys, ms, ds] =>
    if decide (ys.length = 4) && ys.all Char.isDigit &&
       (!ms.isEmpty) && decide (ms.length ≤ 2) && ms.all Char.isDigit &&
       (!ds.isEmpty) && decide (ds.length ≤ 2) && ds.all Char.isDigit &&
       validDate (digitsToNat ys) (digitsToNat ms) (digitsToNat ds)
    then some ⟨digitsToNat ys, digitsToNat ms, digitsToNat ds⟩
    else none
  | _ => none

/-- Strict ordering of dates, lexicographic on year, month, day. -/
def dateLt (a b : PyDate) : Bool :=
  decide (a.year < b.year) ||
    (a.year == b.year &&
      (decide (a.month < b.month) ||
        (a.month == b.month && decide (a.day < b.day))))

/-- The month-day pair of the first date precedes that of the second:
the comparison deciding whether the birthday has occurred yet this
year. -/
def mdBefore (a b : PyDate) : Bool :=
  decide (a.month < b.month) || (a.month == b.month && decide (a.day < b.day))

/-- Day-accurate age: year difference, minus one when the current
month-day precedes the birth month-day. -/
def computeAge (today birth : PyDate) : Int :=
  (today.year : Int) - (birth.year : Int) - (if mdBefore today birth then 1 else 0)

def msgFirstName : String :=
  "Invalid first name. It should be 2-50 characters long and contains only letters, spaces, or hyphens."

def msgLastName : String :=
  "Invalid last name. It should be 2-50 characters long and contains only letters, spaces, or hyphens."

def msgPhone : String :=
  "Invalid phone number. It should be 10 digits and start with 5,6,7,8 or 9."

/-- The birthdate range message, byte-for-byte as the source literal
(whose dash is a mis-encoded en dash). -/
def msgBirthRange : String :=
  "Invalid birthdate (age must be 5â€“100)"

def msgBirthFormat : String :=
  "Invalid birthdate format (YYYY-MM-DD)"

def msgEmail : String :=
  "Invalid email format"

/-- Errors contributed by the birthdate rule: a format error when the
field does not parse, a range error when the date is in the future or the
day-accurate age falls outside 5 to 100 inclusive. -/
def birthdateErrors (today : PyDate) (c : Candidate) : List String :=
  match parseBirthdate (c.birthdate.getD "") with
  | none => [msgBirthFormat]
  | some birth =>
    if dateLt today birth ||
        !(decide (5 ≤ computeAge today birth) && decide (computeAge today birth ≤ 100))
    then [msgBirthRange] else []

/-- The validator: checks the five rules in source order and accumulates
one message per violated rule. -/
def validate_student (today : PyDate) (c : Candidate) : List String :=
  (if firstNameOk c then [] else [msgFirstName]) ++
  (if lastNameOk c then [] else [msgLastName]) ++
  (if phoneOk c then [] else [msgPhone]) ++
  birthdateErrors today c ++
  (if emailOk c then [] else [msgEmail])

example : validate_student ⟨2026, 10, 12⟩
    ⟨some "Ann", some "Lee", some "9123456789", some "2000-01-01", some "ann@x.com"⟩ = [] := by
  decide

example : validate_student ⟨2026, 10, 12⟩
    ⟨some "A", some "Lee", some "9123456789", some "2999-01-01", some "ann@x.com"⟩ =
    [msgFirstName, msgBirthRange] := by
  decide

/-- A persisted row of the students table. -/
structure Row where
  id : Nat
  first_name : String
  last_name : String
  number : String
  birthdate : String
  email : String
deriving DecidableEq

/-- The non-id column values of a row, in column order. -/
def Row.fields (r : Row) : String × String × String × String × String :=
  (r.first_name, r.last_name, r.number, r.birthdate, r.email)

/-- The primary-key value the storage layer assigns to a fresh insert: one
more than the largest existing key (1 on an empty table). -/
def nextId (t : List Row) : Nat :=
  (t.map Row.id).foldr Nat.max 0 + 1

/-- Result of an endpoint call, as translated from its HTTP response. -/
inductive ApiResult where
  | ok (message : String)
  | badRequest (errors : List String)
  | notFound (errors : List String)
deriving DecidableEq

def msgPhoneExists : String := "A student with this phone number already exists."

def msgEmailExists : String := "A student with this email already exists."

def msgIntegrity : String := "Database integrity error"

def msgStudentNotFound : String := "Student not found"

/-- Substring occurrence test on character lists. -/
def hasSubstr (needle : List Char) : List Char → Bool
  | [] => needle.isPrefixOf []
  | c :: rest => needle.isPrefixOf (c :: rest) || hasSubstr needle rest

/-- Python-style substring membership on strings. -/
def pyContains (hay needle : String) : Bool :=
  hasSubstr needle.toList hay.toList

/-- Uppercasing of a string, character by character. -/
def pyUpper (s : String) : String :=
  String.mk (s.toList.map Char.toUpper)

/-- The message the storage driver attaches to a violation of the email
uniqueness constraint. -/
def sqliteEmailErrMsg : String := "UNIQUE constraint failed: students.email"

/-- Classification of a storage integrity error by its uppercased text:
messages mentioning UNIQUE or EMAIL are reported as the email conflict,
anything else as the generic integrity message. -/
def classifyIntegrityError (excMsg : String) : String :=
  let errText := pyUpper excMsg
  if pyContains errText "UNIQUE" || pyContains errText "EMAIL"
  then msgEmailExists else msgIntegrity

/-- The validated field values extracted from a candidate whose
validation produced no errors (all five fields are then present). -/
def Candidate.payload (c : Candidate) : Row :=
  ⟨0, c.first_name.getD "", c.last_name.getD "", c.phone.getD "",
    c.birthdate.getD "", c.email.getD ""⟩

/-- The create endpoint: validates, rejects a candidate whose phone
already appears in some row, then inserts; the storage layer rejects a
duplicate email with an integrity error that is classified by message
text. On success a fresh row is appended under the next key. -/
def add_student (today : PyDate) (t : List Row) (c : Candidate) :
    ApiResult × List Row :=
  let errors := validate_student today c
  if !errors.isEmpty then (.badRequest errors, t)
  else
    let d := c.payload
    if t.any (fun r => r.number == d.number) then
      (.badRequest [msgPhoneExists], t)
    else if t.any (fun r => r.email == d.email) then
      (.badRequest [classifyIntegrityError sqliteEmailErrMsg], t)
    else
      (.ok "Student registered successfully!",
        t ++ [⟨nextId t, d.first_name, d.last_name, d.number, d.birthdate, d.email⟩])

/-- The update endpoint: validates, rejects when another row (a row whose
id differs from the target) holds the candidate phone, reports not-found
when no row matches the id, maps a storage email-uniqueness rejection to
the classified conflict, and otherwise overwrites every non-id field of
the matching row. -/
def edit_student (today : PyDate) (t : List Row) (sid : Nat) (c : Candidate) :
    ApiResult × List Row :=
  let errors := validate_student today c
  if !errors.isEmpty then (.badRequest errors, t)
  else
    let d := c.payload
    if t.any (fun r => r.number == d.number && !(r.id == sid)) then
      (.badRequest [msgPhoneExists], t)
    else if !(t.any (fun r => r.id == sid)) then
      (.notFound [msgStudentNotFound], t)
    else if t.any (fun r => r.email == d.email && !(r.id == sid)) then
      (.badRequest [classifyIntegrityError sqliteEmailErrMsg], t)
    else
      (.ok "Student updated successfully!",
        t.map (fun r => if r.id == sid then
          ⟨sid, d.first_name, d.last_name, d.number, d.birthdate, d.email⟩ else r))

/-- The rows of the table ordered by their current id, as read back by the
resequencer's initial query. -/
def sortById (t : List Row) : List Row :=
  t.mergeSort (fun a b => decide (a.id ≤ b.id))

/-- Reassignment of consecutive ids starting from a given value, keeping
every non-id field. -/
def assignIds : Nat → List Row → List Row
  | _, [] => []
  | n, r :: rest =>
    ⟨n, r.first_name, r.last_name, r.number, r.birthdate, r.email⟩ ::
      assignIds (n + 1) rest

/-- The compacted table a fully successful resequencing pass produces:
prior rows in prior-id order under ids 1, 2, and so on. -/
def rebuildRows (t : List Row) : List Row :=
  assignIds 1 (sortById t)

/-- One insert inside the rebuild transaction: fails when the working
table already holds the row's id (primary key) or email (unique
constraint). -/
def insertStep (work : List Row) (r : Row) : Option (List Row) :=
  if work.any (fun w => w.id == r.id || w.email == r.email) then none
  else some (work ++ [r])

/-- Run of the rebuild's insert sequence against the fresh table, with an
optional externally injected failure before the numbered step; the index
one past the last insert stands for a failure at commit. -/
def runInsertSteps (failAt : Option Nat) : Nat → List Row → List Row → Option (List Row)
  | _, work, [] => some work
  | i, work, r :: rest =>
    if failAt == some i then none
    else match insertStep work r with
      | none => none
      | some work2 => runInsertSteps failAt (i + 1) work2 rest

/-- The resequencer: reads the rows in id order, drops and recreates the
table, reinserts the rows under compact ids, and commits at the end.
Under the driver's legacy transaction control an implicit transaction is
opened only before data-modification statements, so the DROP TABLE and
CREATE TABLE statements autocommit and are durable at once; only the
reinserts run inside the transaction the first INSERT opens, and the
final commit closes it. Failure point 0 falls during the initial read,
before the DROP: the table is untouched. A failure during the reinsert
loop (point i before the i-th insert), an insert rejected by a
constraint, or a failure of the commit itself (the point one past the
last insert) rolls back only the inserts, leaving the durable empty
table behind; a failure between the two autocommitted statements would
leave no table at all, modelled here as the empty table. The Boolean
reports success. -/
def resequence_students (db : List Row) (failAt : Option Nat) : Bool × List Row :=
  let rows := rebuildRows db
  if failAt == some 0 then (false, db)
  else
    match runInsertSteps failAt 1 [] rows with
    | none => (false, [])
    | some work =>
      if failAt == some (rows.length + 1) then (false, []) else (true, work)

/-- The delete endpoint: removes the row with the given id, reporting
not-found when nothing was deleted; on success it runs the resequencer
and swallows any resequencer failure, still reporting the delete as
successful. -/
def delete_student (t : List Row) (sid : Nat) (reseqFailAt : Option Nat) :
    ApiResult × List Row :=
  let remaining := t.filter (fun r => !(r.id == sid))
  if remaining.length == t.length then (.notFound [msgStudentNotFound], t)
  else (.ok "Student deleted", (resequence_students remaining reseqFailAt).2)

lemma birthdateErrors_cases (today : PyDate) (c : Candidate) :
    birthdateErrors today c = [] ∨ birthdateErrors today c = [msgBirthFormat] ∨
      birthdateErrors today c = [msgBirthRange] := by
  unfold birthdateErrors
  rcases parseBirthdate (c.birthdate.getD "") with _ | birth
  · exact Or.inr (Or.inl rfl)
  · by_cases h : (dateLt today birth ||
        !(decide (5 ≤ computeAge today birth) && decide (computeAge today birth ≤ 100))) = true
    · refine Or.inr (Or.inr ?_)
      show (if (dateLt today birth ||
          !(decide (5 ≤ computeAge today birth) && decide (computeAge today birth ≤ 100))) = true
        then [msgBirthRange] else ([] : List String)) = [msgBirthRange]
      rw [if_pos h]
    · refine Or.inl ?_
      show (if (dateLt today birth ||
          !(decide (5 ≤ computeAge today birth) && decide (computeAge today birth ≤ 100))) = true
        then [msgBirthRange] else ([] : List String)) = []
      rw [if_neg h]

lemma mem_validate_phone (today : PyDate) (c : Candidate) :
    msgPhone ∈ validate_student today c ↔ phoneOk c = false := by
  cases h1 : firstNameOk c <;> cases h2 : lastNameOk c <;>
    cases h3 : phoneOk c <;> cases h4 : emailOk c <;>
    rcases birthdateErrors_cases today c with hb | hb | hb <;>
    simp [validate_student, h1, h2, h3, h4, hb] <;> decide

lemma mem_validate_birthRange (today : PyDate) (c : Candidate) :
    msgBirthRange ∈ validate_student today c ↔
      msgBirthRange ∈ birthdateErrors today c := by
  cases h1 : firstNameOk c <;> cases h2 : lastNameOk c <;>
    cases h3 : phoneOk c <;> cases h4 : emailOk c <;>
    rcases birthdateErrors_cases today c with hb | hb | hb <;>
    simp [validate_student, h1, h2, h3, h4, hb] <;> decide

lemma mem_validate_birthFormat (today : PyDate) (c : Candidate) :
    msgBirthFormat ∈ validate_student today c ↔
      msgBirthFormat ∈ birthdateErrors today c := by
  cases h1 : firstNameOk c <;> cases h2 : lastNameOk c <;>
    cases h3 : phoneOk c <;> cases h4 : emailOk c <;>
    rcases birthdateErrors_cases today c with hb | hb | hb <;>
    simp [validate_student, h1, h2, h3, h4, hb] <;> decide

/-- C1: the validator always returns a plain list of error strings; it
carries exactly one message per violated rule (first name, last name,
phone, birthdate, email), its length is the number of violated rules, and
it is empty exactly when all five rules pass. -/
theorem validate_student_error_accounting (today : PyDate) (c : Candidate) :
    (validate_student today c).length =
      ((if firstNameOk c then 0 else 1) + (if lastNameOk c then 0 else 1) +
        (if phoneOk c then 0 else 1) +
        (if birthdateErrors today c = [] then 0 else 1) +
        (if emailOk c then 0 else 1)) ∧
    ((validate_student today c).count msgFirstName =
      if firstNameOk c then 0 else 1) ∧
    ((validate_student today c).count msgLastName =
      if lastNameOk c then 0 else 1) ∧
    ((validate_student today c).count msgPhone =
      if phoneOk c then 0 else 1) ∧
    ((validate_student today c).count msgBirthFormat +
        (validate_student today c).count msgBirthRange =
      if birthdateErrors today c = [] then 0 else 1) ∧
    ((validate_student today c).count msgEmail =
      if emailOk c then 0 else 1) ∧
    (validate_student today c = [] ↔
      (firstNameOk c ∧ lastNameOk c ∧ phoneOk c ∧
        birthdateErrors today c = [] ∧ emailOk c)) := by
  cases h1 : firstNameOk c <;> cases h2 : lastNameOk c <;>
    cases h3 : phoneOk c <;> cases h4 : emailOk c <;>
    rcases birthdateErrors_cases today c with hb | hb | hb <;>
    simp [validate_student, h1, h2, h3, h4, hb, List.count_cons] <;>
    decide

/-- Modelled from the claim's wording: the whole string is exactly ten
digits and its first digit is one of 5, 6, 7, 8, 9. -/
def specPhoneWhole (cs : List Char) : Bool :=
  decide (cs.length = 10) && cs.all Char.isDigit &&
    (match cs.head? with
     | none => false
     | some c => decide ('5' ≤ c) && decide (c ≤ '9'))

/-- Modelled from the amended claim: the whole-string form, or that form
followed by exactly one trailing newline. -/
def specPhoneLenient (cs : List Char) : Bool :=
  specPhoneWhole cs || (cs.getLast? == some '\n' && specPhoneWhole cs.dropLast)

/-- The amended phone-field acceptance condition on the optional field. -/
def specPhoneAmended (p : Option String) : Bool :=
  match p with
  | none => false
  | some s => specPhoneLenient s.toList

lemma isDigit_of_ge5_le9 {c : Char} (h5 : '5' ≤ c) (h9 : c ≤ '9') :
    c.isDigit = true := by
  rw [Char.le_def] at h5 h9
  have h1 : (48 : UInt32) ≤ c.val :=
    UInt32.le_trans (show (48 : UInt32) ≤ Char.val '5' by decide) h5
  have h2 : c.val ≤ 57 := h9
  simp [Char.isDigit, ge_iff_le, h1, h2]

lemma phoneCore_eq_specPhoneWhole (cs : List Char) :
    phoneCore cs = specPhoneWhole cs := by
  cases cs with
  | nil => rfl
  | cons c rest =>
    by_cases h5 : '5' ≤ c
    · by_cases h9 : c ≤ '9'
      · have hd := isDigit_of_ge5_le9 h5 h9
        by_cases hlen : rest.length = 9
        · simp [phoneCore, specPhoneWhole, h5, h9, hd, hlen]
        · simp [phoneCore, specPhoneWhole, h5, h9, hd, hlen]
      · simp [phoneCore, specPhoneWhole, h9]
    · simp [phoneCore, specPhoneWhole, h5]

lemma phoneOk_eq_specPhoneAmended (c : Candidate) :
    phoneOk c = specPhoneAmended c.phone := by
  cases hp : c.phone with
  | none => simp [phoneOk, specPhoneAmended, hp]
  | some s =>
    by_cases hs : s = ""
    · simp [phoneOk, specPhoneAmended, hp, hs, specPhoneLenient, specPhoneWhole]
    · simp [phoneOk, specPhoneAmended, hp, hs, pyDollarMatch, specPhoneLenient,
        phoneCore_eq_specPhoneWhole]

/-- C9 (amended): the validator reports the phone error exactly when the
phone field is absent, or fails the pattern under the actual end-anchor
semantics: ten digits with leading digit 5 to 9, optionally followed by a
single trailing newline. -/
theorem phone_error_iff_lenient_pattern (today : PyDate) (c : Candidate) :
    msgPhone ∈ validate_student today c ↔ specPhoneAmended c.phone = false := by
  rw [mem_validate_phone, phoneOk_eq_specPhoneAmended]

/-- A fixed current date used for concrete evaluations. -/
def cexToday : PyDate := ⟨2026, 10, 12⟩

/-- A candidate whose phone field is ten valid digits followed by a
trailing newline. -/
def cexPhoneCand : Candidate :=
  ⟨some "Ann", some "Lee", some "9123456789\n", some "2000-01-01", some "ann@x.com"⟩

/-- C9 counterexample: a phone of ten digits plus a trailing newline is
not a whole-string match of the ten-digit pattern, yet the validator
reports no phone error for it. -/
theorem phone_error_claim_cex :
    cexPhoneCand.phone = some "9123456789\n" ∧
    specPhoneWhole ("9123456789\n".toList) = false ∧
    msgPhone ∉ validate_student cexToday cexPhoneCand := by
  decide

lemma birthdateErrors_of_parse (today : PyDate) (c : Candidate) (b : PyDate)
    (hb : parseBirthdate (c.birthdate.getD "") = some b) :
    birthdateErrors today c =
      (if (dateLt today b ||
          !(decide (5 ≤ computeAge today b) && decide (computeAge today b ≤ 100))) = true
       then [msgBirthRange] else []) := by
  unfold birthdateErrors
  rw [hb]

lemma birthdateErrors_of_noparse (today : PyDate) (c : Candidate)
    (hb : parseBirthdate (c.birthdate.getD "") = none) :
    birthdateErrors today c = [msgBirthFormat] := by
  unfold birthdateErrors
  rw [hb]

/-- C8: for a birthdate that parses as a year-month-day date, the
validator reports the range error exactly when the date is in the future
or the day-accurate age (year difference minus one when the current
month-day precedes the birth month-day) lies outside 5 to 100 inclusive,
and never the format error; an unparseable birthdate yields the format
error. -/
theorem birthdate_age_check :
    (∀ (today : PyDate) (c : Candidate) (s : String) (b : PyDate),
      c.birthdate = some s → parseBirthdate s = some b →
      ((msgBirthRange ∈ validate_student today c ↔
        (dateLt today b = true ∨ computeAge today b < 5 ∨ 100 < computeAge today b)) ∧
       msgBirthFormat ∉ validate_student today c)) ∧
    (∀ (today : PyDate) (c : Candidate) (s : String),
      c.birthdate = some s → parseBirthdate s = none →
      msgBirthFormat ∈ validate_student today c) := by
  constructor
  · intro today c s b hs hb
    have hb' : parseBirthdate (c.birthdate.getD "") = some b := by rw [hs]; exact hb
    constructor
    · rw [mem_validate_birthRange, birthdateErrors_of_parse today c b hb']
      by_cases hcond : (dateLt today b ||
          !(decide (5 ≤ computeAge today b) && decide (computeAge today b ≤ 100))) = true
      · rw [if_pos hcond]
        simp only [List.mem_singleton, true_iff, iff_true]
        rcases Bool.or_eq_true_iff.mp hcond with h | h
        · exact Or.inl h
        · simp only [Bool.not_eq_true', Bool.and_eq_false_iff,
            decide_eq_false_iff_not, not_le] at h
          right
          omega
      · rw [if_neg hcond]
        simp only [List.not_mem_nil, false_iff]
        simp only [Bool.or_eq_true_iff, Bool.not_eq_true', Bool.and_eq_false_iff,
          decide_eq_false_iff_not, not_le, not_or] at hcond
        obtain ⟨hc1, hc2, hc3⟩ := hcond
        push_neg
        exact ⟨hc1, by omega, by omega⟩
    · rw [mem_validate_birthFormat, birthdateErrors_of_parse today c b hb']
      by_cases hcond : (dateLt today b ||
          !(decide (5 ≤ computeAge today b) && decide (computeAge today b ≤ 100))) = true
      · rw [if_pos hcond]
        simp only [List.mem_singleton]
        decide
      · rw [if_neg hcond]
        exact List.not_mem_nil _
  · intro today c s hs hb
    have hb' : parseBirthdate (c.birthdate.getD "") = none := by rw [hs]; exact hb
    rw [mem_validate_birthFormat, birthdateErrors_of_noparse today c hb']
    exact List.mem_singleton_self _

/-- A candidate with a far-future birthdate. -/
def cexFutureCand : Candidate :=
  ⟨some "Ann", some "Lee", some "9123456789", some "2999-01-01", some "ann@x.com"⟩

/-- A candidate whose birthdate has an impossible month. -/
def cexBadDateCand : Candidate :=
  ⟨some "Ann", some "Lee", some "9123456789", some "2000-13-01", some "ann@x.com"⟩

/-- Witness for C8 at concrete inputs: a future date draws the range
error and a malformed date draws the format error. -/
theorem birthdate_age_check_witness :
    msgBirthRange ∈ validate_student cexToday cexFutureCand ∧
    msgBirthFormat ∈ validate_student cexToday cexBadDateCand := by
  constructor
  · exact ((birthdate_age_check.1 cexToday cexFutureCand "2999-01-01" ⟨2999, 1, 1⟩
      rfl (by decide)).1).mpr (by decide)
  · exact birthdate_age_check.2 cexToday cexBadDateCand "2000-13-01" rfl (by decide)

lemma assignIds_length (n : Nat) (l : List Row) :
    (assignIds n l).length = l.length := by
  induction l generalizing n with
  | nil => rfl
  | cons r rest ih => simp [assignIds, ih]

lemma assignIds_map_id (n : Nat) (l : List Row) :
    (assignIds n l).map Row.id = List.range' n l.length := by
  induction l generalizing n with
  | nil => rfl
  | cons r rest ih => simp [assignIds, List.range'_succ, ih]

lemma assignIds_map_fields (n : Nat) (l : List Row) :
    (assignIds n l).map Row.fields = l.map Row.fields := by
  induction l generalizing n with
  | nil => rfl
  | cons r rest ih => simp [assignIds, Row.fields, ih]

lemma assignIds_map_email (n : Nat) (l : List Row) :
    (assignIds n l).map Row.email = l.map Row.email := by
  induction l generalizing n with
  | nil => rfl
  | cons r rest ih => simp [assignIds, ih]

lemma sortById_perm (t : List Row) : List.Perm (sortById t) t :=
  List.mergeSort_perm t (fun a b => decide (a.id ≤ b.id))

lemma sortById_length (t : List Row) : (sortById t).length = t.length :=
  (sortById_perm t).length_eq

lemma sortById_sorted (t : List Row) :
    (sortById t).Pairwise (fun a b => a.id ≤ b.id) := by
  have h : (List.mergeSort t (fun a b => decide (a.id ≤ b.id))).Pairwise
      (fun a b => decide (a.id ≤ b.id) = true) := by
    apply List.sorted_mergeSort
    · intro a b c hab hbc
      simp only [decide_eq_true_eq] at *
      omega
    · intro a b
      simp [Nat.le_total]
  exact h.imp (fun hab => of_decide_eq_true hab)

lemma sortById_of_sorted {t : List Row}
    (h : t.Pairwise (fun a b => a.id ≤ b.id)) : sortById t = t :=
  List.mergeSort_of_sorted (h.imp (fun hab => decide_eq_true hab))

lemma runInsertSteps_some (failAt : Option Nat) (rows : List Row) :
    ∀ (i : Nat) (work w : List Row),
    runInsertSteps failAt i work rows = some w → w = work ++ rows := by
  induction rows with
  | nil =>
    intro i work w h
    simp only [runInsertSteps] at h
    simp [← Option.some_inj.mp h]
  | cons r rest ih =>
    intro i work w h
    simp only [runInsertSteps] at h
    by_cases hf : (failAt == some i) = true
    · rw [if_pos hf] at h
      exact absurd h (by simp)
    · rw [if_neg hf] at h
      cases hstep : insertStep work r with
      | none =>
        rw [hstep] at h
        exact absurd h (by simp)
      | some work2 =>
        rw [hstep] at h
        have hw2 : work2 = work ++ [r] := by
          unfold insertStep at hstep
          by_cases hany : (work.any (fun w => w.id == r.id || w.email == r.email)) = true
          · rw [if_pos hany] at hstep
            exact absurd hstep (by simp)
          · rw [if_neg hany] at hstep
            exact (Option.some_inj.mp hstep).symm
        rw [ih (i + 1) work2 w h, hw2]
        simp

lemma runInsertSteps_none_eq (rows : List Row) :
    ∀ (i : Nat) (work : List Row),
    (∀ r ∈ rows, ∀ w ∈ work, w.id ≠ r.id ∧ w.email ≠ r.email) →
    rows.Pairwise (fun a b => a.id ≠ b.id ∧ a.email ≠ b.email) →
    runInsertSteps none i work rows = some (work ++ rows) := by
  induction rows with
  | nil =>
    intro i work _ _
    simp [runInsertSteps]
  | cons r rest ih =>
    intro i work hdis hpw
    have hstep : insertStep work r = some (work ++ [r]) := by
      unfold insertStep
      have hcond : ¬ (work.any (fun w => w.id == r.id || w.email == r.email)) = true := by
        simp only [List.any_eq_true, Bool.or_eq_true, beq_iff_eq, not_exists]
        rintro w ⟨hw, hor | hor⟩
        · exact (hdis r (List.mem_cons_self r rest) w hw).1 hor
        · exact (hdis r (List.mem_cons_self r rest) w hw).2 hor
      rw [if_neg hcond]
    simp only [runInsertSteps,
      show ((none : Option Nat) == some i) = false from rfl]
    rw [if_neg (by simp), hstep]
    have hdis2 : ∀ x ∈ rest, ∀ w ∈ work ++ [r], w.id ≠ x.id ∧ w.email ≠ x.email := by
      intro x hx w hw
      rcases List.mem_append.mp hw with hw | hw
      · exact hdis x (List.mem_cons_of_mem r hx) w hw
      · rw [List.mem_singleton.mp hw]
        exact (List.pairwise_cons.mp hpw).1 x hx
    show runInsertSteps none (i + 1) (work ++ [r]) rest = some (work ++ r :: rest)
    rw [ih (i + 1) (work ++ [r]) hdis2 (List.pairwise_cons.mp hpw).2]
    simp

lemma resequence_cases (db : List Row) (failAt : Option Nat) :
    resequence_students db failAt = (false, db) ∨
    resequence_students db failAt = (false, []) ∨
    resequence_students db failAt = (true, rebuildRows db) := by
  unfold resequence_students
  by_cases h0 : (failAt == some 0) = true
  · left
    simp [h0]
  · cases h : runInsertSteps failAt 1 [] (rebuildRows db) with
    | none =>
      right; left
      simp [h0, h]
    | some w =>
      have hw : w = [] ++ rebuildRows db := runInsertSteps_some failAt _ 1 [] w h
      by_cases hf : (failAt == some ((rebuildRows db).length + 1)) = true
      · right; left
        simp [h0, h, hf]
      · right; right
        simp [h0, h, hf, hw]

lemma rebuildRows_pairwise (t : List Row)
    (hemail : t.Pairwise (fun a b => a.email ≠ b.email)) :
    (rebuildRows t).Pairwise (fun a b => a.id ≠ b.id ∧ a.email ≠ b.email) := by
  have hid : (rebuildRows t).Pairwise (fun a b => a.id ≠ b.id) := by
    have h1 : ((rebuildRows t).map Row.id).Pairwise (fun a b => a ≠ b) := by
      rw [rebuildRows, assignIds_map_id]
      exact List.nodup_range' 1 (sortById t).length
    exact List.pairwise_map.mp h1
  have hem : (rebuildRows t).Pairwise (fun a b => a.email ≠ b.email) := by
    have h3 : (sortById t).Pairwise (fun a b => a.email ≠ b.email) :=
      (List.Perm.pairwise_iff (fun h => Ne.symm h) (sortById_perm t)).mpr hemail
    have h4 : ((sortById t).map Row.email).Pairwise (fun a b => a ≠ b) :=
      List.pairwise_map.mpr h3
    have h5 : ((rebuildRows t).map Row.email).Pairwise (fun a b => a ≠ b) := by
      rw [rebuildRows, assignIds_map_email]
      exact h4
    exact List.pairwise_map.mp h5
  exact hid.and hem

lemma resequence_none_success (t : List Row)
    (hemail : t.Pairwise (fun a b => a.email ≠ b.email)) :
    resequence_students t none = (true, rebuildRows t) := by
  have h := runInsertSteps_none_eq (rebuildRows t) 1 [] (by simp)
    (rebuildRows_pairwise t hemail)
  rw [List.nil_append] at h
  unfold resequence_students
  simp [h]

/-- A concrete one-row table used for evaluations. -/
def witnessT1 : List Row :=
  [⟨1, "Ann", "Lee", "9123456789", "2000-01-01", "ann@x.com"⟩]

/-- A concrete two-row table with distinct phones and emails. -/
def witnessT2 : List Row :=
  [⟨1, "Ann", "Lee", "9123456789", "2000-01-01", "ann@x.com"⟩,
   ⟨3, "Bob", "Ray", "8123456789", "2001-02-03", "bob@x.com"⟩]

/-- C6 (code bug): the rebuild is neither atomic nor batched in a single
transaction. Because the DROP and CREATE statements autocommit, a
failure during the reinsert loop reports failure with the table left
empty: the original row is lost rather than intact. Only a failure
before the DROP, during the initial read, preserves the rows. -/
theorem resequence_not_atomic_bug :
    (resequence_students witnessT1 (some 1)).1 = false ∧
    (resequence_students witnessT1 (some 1)).2 = [] ∧
    witnessT1 ≠ [] ∧
    resequence_students witnessT1 (some 0) = (false, witnessT1) := by
  have hs : sortById [⟨1, "Ann", "Lee", "9123456789", "2000-01-01", "ann@x.com"⟩] =
      [⟨1, "Ann", "Lee", "9123456789", "2000-01-01", "ann@x.com"⟩] :=
    sortById_of_sorted (by decide)
  have h1 : resequence_students witnessT1 (some 1) = (false, []) := by
    simp [resequence_students, rebuildRows, witnessT1, hs, runInsertSteps, assignIds]
  have h0 : resequence_students witnessT1 (some 0) = (false, witnessT1) := by
    simp [resequence_students]
  exact ⟨by rw [h1], by rw [h1], by decide, h0⟩

/-- C2: on a table whose rows carry pairwise-distinct emails (the
storage-layer invariant), the resequencer succeeds and produces the rows
in prior-id order with ids exactly 1 to N and no gaps; the row count is
preserved, and on a table already ordered by id the field tuples keep
their relative order. -/
theorem resequence_compacts_ids (t : List Row)
    (hemail : t.Pairwise (fun a b => a.email ≠ b.email)) :
    resequence_students t none = (true, rebuildRows t) ∧
    (rebuildRows t).length = t.length ∧
    (rebuildRows t).map Row.id = List.range' 1 t.length ∧
    List.Perm (sortById t) t ∧
    (sortById t).Pairwise (fun a b => a.id ≤ b.id) ∧
    (t.Pairwise (fun a b => a.id ≤ b.id) →
      (rebuildRows t).map Row.fields = t.map Row.fields) := by
  refine ⟨resequence_none_success t hemail, ?_, ?_, sortById_perm t, sortById_sorted t, ?_⟩
  · rw [rebuildRows, assignIds_length, sortById_length]
  · rw [rebuildRows, assignIds_map_id, sortById_length]
  · intro hsorted
    rw [rebuildRows, assignIds_map_fields, sortById_of_sorted hsorted]

/-- Witness for C2 on a concrete two-row table. -/
theorem resequence_compacts_ids_witness :
    witnessT2.Pairwise (fun a b => a.email ≠ b.email) ∧
    resequence_students witnessT2 none = (true, rebuildRows witnessT2) ∧
    (rebuildRows witnessT2).map Row.id = List.range' 1 witnessT2.length := by
  refine ⟨by decide, (resequence_compacts_ids witnessT2 (by decide)).1,
    (resequence_compacts_ids witnessT2 (by decide)).2.2.1⟩

/-- C10: a successful resequencing pass preserves every non-id field
byte-for-byte: read in prior-id order, the sequence of non-id field
tuples of the result equals that of the input. -/
theorem resequence_preserves_fields (t : List Row) (failAt : Option Nat)
    (hsucc : (resequence_students t failAt).1 = true) :
    ((resequence_students t failAt).2).map Row.fields =
      (sortById t).map Row.fields ∧
    List.Perm (sortById t) t ∧
    (sortById t).Pairwise (fun a b => a.id ≤ b.id) := by
  rcases resequence_cases t failAt with h | h | h
  · rw [h] at hsucc
    exact absurd hsucc (by simp)
  · rw [h] at hsucc
    exact absurd hsucc (by simp)
  · rw [h]
    exact ⟨by rw [rebuildRows, assignIds_map_fields], sortById_perm t, sortById_sorted t⟩

/-- Witness for C10: a successful pass on the concrete two-row table. -/
theorem resequence_preserves_fields_witness :
    (resequence_students witnessT2 none).1 = true ∧
    ((resequence_students witnessT2 none).2).map Row.fields =
      (sortById witnessT2).map Row.fields := by
  have hsucc : (resequence_students witnessT2 none).1 = true := by
    rw [resequence_none_success witnessT2 (by decide)]
  exact ⟨hsucc, (resequence_preserves_fields witnessT2 none hsucc).1⟩

lemma delete_student_eq_of_deleted {t : List Row} {sid : Nat} (failAt : Option Nat)
    (h : ((t.filter (fun r => !(r.id == sid))).length == t.length) = false) :
    delete_student t sid failAt =
      (ApiResult.ok "Student deleted",
        (resequence_students (t.filter (fun r => !(r.id == sid))) failAt).2) := by
  unfold delete_student
  simp [h]

/-- C7 (code bug): the delete reports not-found on a missing id with the
table unchanged, and on success it swallows a resequencer failure and
still reports success; but the removal is not limited to the targeted
row: deleting id 1 from the two-row table with the rebuild failing
during the reinsert loop leaves the table empty, losing the remaining
id-3 row as well. -/
theorem delete_student_wipes_on_reseq_failure :
    (delete_student witnessT2 1 (some 1)).1 = ApiResult.ok "Student deleted" ∧
    (delete_student witnessT2 1 (some 1)).2 = [] ∧
    witnessT2.filter (fun r => !(r.id == 1)) ≠ [] ∧
    delete_student witnessT2 7 none =
      (ApiResult.notFound [msgStudentNotFound], witnessT2) := by
  have hs3 : sortById [⟨3, "Bob", "Ray", "8123456789", "2001-02-03", "bob@x.com"⟩] =
      [⟨3, "Bob", "Ray", "8123456789", "2001-02-03", "bob@x.com"⟩] :=
    sortById_of_sorted (by decide)
  have hres : resequence_students
      [⟨3, "Bob", "Ray", "8123456789", "2001-02-03", "bob@x.com"⟩] (some 1) =
      (false, []) := by
    simp [resequence_students, rebuildRows, hs3, runInsertSteps, assignIds]
  have hfilter : witnessT2.filter (fun r => !(r.id == 1)) =
      [⟨3, "Bob", "Ray", "8123456789", "2001-02-03", "bob@x.com"⟩] := by decide
  have hlen : ((witnessT2.filter (fun r => !(r.id == 1))).length == witnessT2.length) = false := by
    decide
  have hdel := delete_student_eq_of_deleted (some 1) hlen
  rw [hfilter, hres] at hdel
  exact ⟨by rw [hdel], by rw [hdel], by decide, by decide⟩

/-- C3: on a store already holding a row with the candidate's phone, a
create with a validated record fails with the phone-conflict message and
the table is unchanged. -/
theorem add_student_phone_conflict (today : PyDate) (t : List Row) (c : Candidate)
    (hval : validate_student today c = [])
    (hphone : ∃ r ∈ t, r.number = c.phone.getD "") :
    add_student today t c = (ApiResult.badRequest [msgPhoneExists], t) := by
  unfold add_student
  rw [hval]
  have hany : (t.any (fun r => r.number == c.payload.number)) = true := by
    rcases hphone with ⟨r, hr, hnum⟩
    refine List.any_eq_true.mpr ⟨r, hr, ?_⟩
    simp [Candidate.payload, hnum]
  simp [hany]

/-- A store row used in the create-conflict witnesses. -/
def rowBob : Row := ⟨1, "Bob", "Ray", "9123456789", "2001-02-03", "bob@x.com"⟩

/-- A valid candidate that reuses the phone of rowBob. -/
def candSamePhone : Candidate :=
  ⟨some "Ann", some "Lee", some "9123456789", some "2000-01-01", some "ann@x.com"⟩

/-- Witness for C3: inserting a second student with the same phone leaves
the one-row table unchanged and reports the phone conflict. -/
theorem add_student_phone_conflict_witness :
    add_student cexToday [rowBob] candSamePhone =
      (ApiResult.badRequest [msgPhoneExists], [rowBob]) :=
  add_student_phone_conflict cexToday [rowBob] candSamePhone (by decide)
    ⟨rowBob, by decide, rfl⟩

/-- C4: a create whose email already exists (and whose phone is fresh)
fails with the email-conflict message, the table unchanged; and a storage
integrity error whose text mentions neither UNIQUE nor EMAIL is reported
by the generic integrity message, which differs from the email-conflict
message. -/
theorem add_student_email_conflict :
    (∀ (today : PyDate) (t : List Row) (c : Candidate),
      validate_student today c = [] →
      (∀ r ∈ t, r.number ≠ c.phone.getD "") →
      (∃ r ∈ t, r.email = c.email.getD "") →
      add_student today t c = (ApiResult.badRequest [msgEmailExists], t)) ∧
    (∀ m : String, pyContains (pyUpper m) "UNIQUE" = false →
      pyContains (pyUpper m) "EMAIL" = false →
      (classifyIntegrityError m = msgIntegrity ∧ msgIntegrity ≠ msgEmailExists)) := by
  constructor
  · intro today t c hval hfresh hemail
    unfold add_student
    rw [hval]
    have hany : (t.any (fun r => r.number == c.payload.number)) = false := by
      refine Bool.eq_false_iff.mpr ?_
      intro hx
      rcases List.any_eq_true.mp hx with ⟨r, hr, hbeq⟩
      exact hfresh r hr (by simpa [Candidate.payload] using hbeq)
    have hany2 : (t.any (fun r => r.email == c.payload.email)) = true := by
      rcases hemail with ⟨r, hr, hem⟩
      refine List.any_eq_true.mpr ⟨r, hr, ?_⟩
      simp [Candidate.payload, hem]
    have hclass : classifyIntegrityError sqliteEmailErrMsg = msgEmailExists := by decide
    simp [hany, hany2, hclass]
  · intro m h1 h2
    refine ⟨?_, by decide⟩
    unfold classifyIntegrityError
    rw [if_neg (by simp [h1, h2])]

/-- A valid candidate that reuses the email of rowBob under a fresh
phone. -/
def candSameEmail : Candidate :=
  ⟨some "Ann", some "Lee", some "8123456789", some "2000-01-01", some "bob@x.com"⟩

/-- Witness for C4: a duplicate email under a fresh phone draws the email
conflict, and a foreign-key message is classified as the generic
integrity error. -/
theorem add_student_email_conflict_witness :
    add_student cexToday [rowBob] candSameEmail =
      (ApiResult.badRequest [msgEmailExists], [rowBob]) ∧
    classifyIntegrityError "FOREIGN KEY constraint failed" = msgIntegrity := by
  constructor
  · exact add_student_email_conflict.1 cexToday [rowBob] candSameEmail (by decide)
      (by decide) ⟨rowBob, by decide, rfl⟩
  · exact (add_student_email_conflict.2 "FOREIGN KEY constraint failed"
      (by decide) (by decide)).1

lemma validate_ne_phoneExists (today : PyDate) (c : Candidate) :
    validate_student today c ≠ [msgPhoneExists] := by
  intro h
  have hmem : msgPhoneExists ∈ validate_student today c := by
    rw [h]
    exact List.mem_singleton_self _
  revert hmem
  cases h1 : firstNameOk c <;> cases h2 : lastNameOk c <;>
    cases h3 : phoneOk c <;> cases h4 : emailOk c <;>
    rcases birthdateErrors_cases today c with hb | hb | hb <;>
    simp [validate_student, h1, h2, h3, h4, hb] <;> decide

/-- C5: updating a nonexistent id with a valid record whose phone no row
holds reports not-found and leaves the table unchanged; the phone
conflict check excludes the target id, so when every row holding the
candidate phone is the target itself the update never reports the phone
conflict, and with the id present and no other row holding the phone or
email the update succeeds. -/
theorem edit_student_spec :
    (∀ (today : PyDate) (t : List Row) (sid : Nat) (c : Candidate),
      validate_student today c = [] →
      (∀ r ∈ t, r.id ≠ sid) →
      (∀ r ∈ t, r.number ≠ c.phone.getD "") →
      edit_student today t sid c = (ApiResult.notFound [msgStudentNotFound], t)) ∧
    (∀ (today : PyDate) (t : List Row) (sid : Nat) (c : Candidate),
      (∀ r ∈ t, r.number = c.phone.getD "" → r.id = sid) →
      (edit_student today t sid c).1 ≠ ApiResult.badRequest [msgPhoneExists]) ∧
    (∀ (today : PyDate) (t : List Row) (sid : Nat) (c : Candidate),
      validate_student today c = [] →
      (∃ r ∈ t, r.id = sid) →
      (∀ r ∈ t, r.id ≠ sid → r.number ≠ c.phone.getD "") →
      (∀ r ∈ t, r.id ≠ sid → r.email ≠ c.email.getD "") →
      (edit_student today t sid c).1 = ApiResult.ok "Student updated successfully!") := by
  refine ⟨?_, ?_, ?_⟩
  · intro today t sid c hval hid hphone
    unfold edit_student
    rw [hval]
    have hany1 : (t.any (fun r => r.number == c.payload.number && !(r.id == sid))) = false := by
      refine Bool.eq_false_iff.mpr ?_
      intro hx
      rcases List.any_eq_true.mp hx with ⟨r, hr, hb⟩
      rcases Bool.and_eq_true_iff.mp hb with ⟨hb1, hb2⟩
      exact hphone r hr (by simpa [Candidate.payload] using hb1)
    have hany2 : (t.any (fun r => r.id == sid)) = false := by
      refine Bool.eq_false_iff.mpr ?_
      intro hx
      rcases List.any_eq_true.mp hx with ⟨r, hr, hb⟩
      exact hid r hr (by simpa using hb)
    simp [hany1, hany2]
  · intro today t sid c hown
    unfold edit_student
    cases hv : validate_student today c with
    | cons e es =>
      simp only [hv, List.isEmpty_cons, Bool.not_false, if_true]
      intro hcontra
      have heq : e :: es = [msgPhoneExists] := by
        simpa using hcontra
      exact validate_ne_phoneExists today c (hv.trans heq)
    | nil =>
      have hany1 : (t.any (fun r => r.number == c.payload.number && !(r.id == sid))) = false := by
        refine Bool.eq_false_iff.mpr ?_
        intro hx
        rcases List.any_eq_true.mp hx with ⟨r, hr, hb⟩
        rcases Bool.and_eq_true_iff.mp hb with ⟨hb1, hb2⟩
        have hnum : r.number = c.phone.getD "" := by
          simpa [Candidate.payload] using hb1
        have hideq : r.id = sid := hown r hr hnum
        simp [hideq] at hb2
      by_cases hfound : (t.any (fun r => r.id == sid)) = true
      · by_cases hem : (t.any (fun r => r.email == c.payload.email && !(r.id == sid))) = true
        · simp only [hv, List.isEmpty_nil, Bool.not_true, Bool.false_eq_true, if_false,
            hany1, hfound, hem, Bool.not_false, if_true]
          decide
        · simp [hv, hany1, hfound, hem]
      · simp [hv, hany1, hfound]
  · intro today t sid c hval hex hphone hemail
    unfold edit_student
    rw [hval]
    have hany1 : (t.any (fun r => r.number == c.payload.number && !(r.id == sid))) = false := by
      refine Bool.eq_false_iff.mpr ?_
      intro hx
      rcases List.any_eq_true.mp hx with ⟨r, hr, hb⟩
      rcases Bool.and_eq_true_iff.mp hb with ⟨hb1, hb2⟩
      have hne : r.id ≠ sid := by
        intro hcontra
        simp [hcontra] at hb2
      exact hphone r hr hne (by simpa [Candidate.payload] using hb1)
    have hfound : (t.any (fun r => r.id == sid)) = true := by
      rcases hex with ⟨r, hr, hid⟩
      exact List.any_eq_true.mpr ⟨r, hr, by simp [hid]⟩
    have hany3 : (t.any (fun r => r.email == c.payload.email && !(r.id == sid))) = false := by
      refine Bool.eq_false_iff.mpr ?_
      intro hx
      rcases List.any_eq_true.mp hx with ⟨r, hr, hb⟩
      rcases Bool.and_eq_true_iff.mp hb with ⟨hb1, hb2⟩
      have hne : r.id ≠ sid := by
        intro hcontra
        simp [hcontra] at hb2
      exact hemail r hr hne (by simpa [Candidate.payload] using hb1)
    simp [hany1, hfound, hany3]

/-- A valid replacement payload that keeps the phone of rowBob but under
rowBob's own id, with a fresh email. -/
def candOwnPhone : Candidate :=
  ⟨some "Bob", some "Ray", some "9123456789", some "2001-02-03", some "bob2@x.com"⟩

/-- Witness for C5: not-found on a missing id with table unchanged, no
phone conflict when the only phone holder is the target row itself, and
success when updating the target row to its own phone. -/
theorem edit_student_spec_witness :
    edit_student cexToday [rowBob] 9 candSameEmail =
      (ApiResult.notFound [msgStudentNotFound], [rowBob]) ∧
    (edit_student cexToday [rowBob] 1 candOwnPhone).1 ≠
      ApiResult.badRequest [msgPhoneExists] ∧
    (edit_student cexToday [rowBob] 1 candOwnPhone).1 =
      ApiResult.ok "Student updated successfully!" := by
  refine ⟨?_, ?_, ?_⟩
  · exact edit_student_spec.1 cexToday [rowBob] 9 candSameEmail (by decide)
      (by decide) (by decide)
  · exact edit_student_spec.2.1 cexToday [rowBob] 1 candOwnPhone (by decide)
  · exact edit_student_spec.2.2 cexToday [rowBob] 1 candOwnPhone (by decide)
      ⟨rowBob, by decide, rfl⟩ (by decide) (by decide)
